import Mathlib

/-!
Verification of the msgspec OpenAPI serializer extension
(`src/docs/blueprints/msgspec.py`).

The module under verification is a small adapter that lets the host
documentation framework describe msgspec `Struct` types (or `list[Struct]`
annotations).  We embed its four operations shallowly:

* `get_iterable_class` — unwraps a documentation target to a class plus an
  is-list flag;
* `MsgspecExtension._matches` (here `matches_target`) — the selection
  predicate;
* `MsgspecExtension.get_name` (here `get_name`) — the component name;
* `MsgspecExtension.map_serializer` (here `map_serializer`) — the schema
  computation and registry side effect.

Python's dynamic features are modelled explicitly: a target value is either
a class (with a name and an MRO used for `issubclass`) or a non-class object
carrying an optional `__name__`, optional `__args__`, and a runtime class;
exceptions become an `Except` error type; JSON fragments are a finite tree;
`dict`s of sub-schemas are ordered association lists (Python dicts preserve
insertion order).
-/

namespace MsgspecBlueprint

/-- Python exceptions that the embedded code can raise. -/
inductive PyError where
  | typeError
  | attributeError
  | keyError
  | indexError
deriving DecidableEq, Repr

/-- A Python class, identified by its declared `__name__` together with the
names of the classes in its method resolution order; `issubclass a b` is
membership of `b`'s name in `a`'s MRO. -/
structure PyClass where
  name : String
  mro : List String
deriving DecidableEq, Repr

/-- A Python value as seen by the adapter: either a class, or a non-class
object with an optional `__name__` attribute, an optional `__args__`
attribute (the declared type arguments of a generic alias such as
`list[T]`), and its runtime class `__class__`. -/
inductive PyVal where
  | cls (c : PyClass)
  | obj (name : Option String) (args : Option (List PyVal)) (runtime : PyClass)

/-- Attribute access `v.__name__` without a default: raises
`AttributeError` when the object has no such attribute. -/
def pyName : PyVal → Except PyError String
  | .cls c => .ok c.name
  | .obj (some n) _ _ => .ok n
  | .obj none _ _ => .error .attributeError

/-- `issubclass(a, b)`: defined when `a` is a class, raising `TypeError`
otherwise (as CPython does for a non-class first argument). -/
def issubclass : PyVal → PyClass → Except PyError Bool
  | .cls c, tc => .ok (decide (tc.name ∈ c.mro))
  | .obj _ _ _, _ => .error .typeError

/-- Python `==` between a resolved value and a class: identity on classes,
false for non-class values (default object equality). -/
def py_class_eq : PyVal → PyClass → Bool
  | .cls c, tc => decide (c = tc)
  | .obj _ _ _, _ => false

/-- Python's `str.lower()` on attribute names, defined over the character
list so that it computes by kernel reduction. -/
def strLower (s : String) : String := ⟨s.data.map Char.toLower⟩

/-- `get_iterable_class(obj)` from the source: a class is returned as
itself with `is_list = False`; otherwise, when
`getattr(obj, '__name__', 'none').lower() == 'list'` the first declared
type argument `obj.__args__[0]` is returned with `is_list = True` (raising
`AttributeError` when `__args__` is missing and `IndexError` when it is
empty); any other object falls back to its runtime class with
`is_list = False`. -/
def get_iterable_class : PyVal → Except PyError (PyVal × Bool)
  | .cls c => .ok (.cls c, false)
  | .obj nm args runtime =>
    if strLower (nm.getD "none") = "list" then
      match args with
      | none => .error .attributeError
      | some [] => .error .indexError
      | some (a :: _) => .ok (a, true)
    else .ok (.cls runtime, false)

/-- The extension's configuration after the lazy `_load_class` resolution of
the dotted path `"msgspec.Struct"`: `target_class` is `none` when the
owning library is not installed; `match_subclasses` defaults to `True` in
the source. -/
structure MsgspecExtension where
  target_class : Option PyClass
  match_subclasses : Bool

/-- `MsgspecExtension._matches(target)`: returns `False` when the marker
type is unavailable; in subclass mode the call to `get_iterable_class`
followed by `issubclass` is wrapped in `try/except TypeError`, mapping a
`TypeError` to `False` and letting any other exception propagate; in
exact-match mode the resolved value is compared to the marker by `==`. -/
def matches_target (ext : MsgspecExtension) (target : PyVal) : Except PyError Bool :=
  match ext.target_class with
  | none => .ok false
  | some tc =>
    if ext.match_subclasses then
      match get_iterable_class target with
      | .error .typeError => .ok false
      | .error e => .error e
      | .ok (cv, _) =>
        match issubclass cv tc with
        | .error .typeError => .ok false
        | .error e => .error e
        | .ok b => .ok b
    else
      match get_iterable_class target with
      | .error e => .error e
      | .ok (cv, _) => .ok (py_class_eq cv tc)

/-- `MsgspecExtension.get_name`: the resolved class's `__name__`, prefixed
with the literal `ArrayOf` when the target was a list annotation. -/
def get_name (target : PyVal) : Except PyError String :=
  match get_iterable_class target with
  | .error e => .error e
  | .ok (cv, is_iterable) =>
    match pyName cv with
    | .error e => .error e
    | .ok n => .ok (if is_iterable then "ArrayOf" ++ n else n)

/-- A JSON-Schema-compatible tree: mapping, sequence and scalar nodes.
Mappings are ordered association lists, as Python dicts are. -/
inductive Json where
  | null
  | bool (b : Bool)
  | num (n : Int)
  | str (s : String)
  | arr (items : List Json)
  | obj (fields : List (String × Json))

/-- Python `'k' in d` on a mapping node: key membership at the root. -/
def jsonHasKey : Json → String → Bool
  | .obj fields, k => fields.any (fun p => p.1 = k)
  | _, _ => false

/-- Mapping lookup `d[k]` as an option: the first entry with key `k`. -/
def dictLookup (d : List (String × Json)) (k : String) : Option Json :=
  (d.find? (fun p => p.1 = k)).map Prod.snd

/-- `d.pop(k)` with no default: removes the first entry keyed `k` and
returns it with the remaining mapping; `none` models the `KeyError`. -/
def dictPop : List (String × Json) → String → Option (Json × List (String × Json))
  | [], _ => none
  | p :: rest, k =>
    if p.1 = k then some (p.2, rest)
    else match dictPop rest k with
      | none => none
      | some (v, rest') => some (v, p :: rest')

/-- The constant `ResolvedComponent.SCHEMA` of the host framework. -/
def SCHEMA : String := "schemas"

/-- `drf_spectacular.plumbing.ResolvedComponent` as constructed by the
adapter: name, kind, object and schema body. -/
structure ResolvedComponent where
  name : String
  type : String
  object : String
  schema : Json

/-- First registry entry carrying the given component name. -/
def regFind (registry : List ResolvedComponent) (n : String) : Option ResolvedComponent :=
  registry.find? (fun r => r.name = n)

/-- Modelled from the spec: `registry.register_on_missing` lives in the host
framework's plumbing module, which is not under `src/`; the spec describes
it as register-if-absent keyed by component name — insert the component
only when no component of that name is registered, never overwriting. -/
def register_on_missing (registry : List ResolvedComponent)
    (c : ResolvedComponent) : List ResolvedComponent :=
  match regFind registry c.name with
  | some _ => registry
  | none => registry ++ [c]

/-- The component built for a sub-schema entry in `map_serializer`:
`ResolvedComponent(name=sub_name, type=SCHEMA, object=sub_name,
schema=sub_schema)`. -/
def mkComponent (p : String × Json) : ResolvedComponent :=
  ⟨p.1, SCHEMA, p.1, p.2⟩

/-- The registration loop at the end of `map_serializer`: register every
remaining sub-schema on missing, in mapping order. -/
def foldRegister (registry : List ResolvedComponent)
    (comps : List (String × Json)) : List ResolvedComponent :=
  comps.foldl (fun reg p => register_on_missing reg (mkComponent p)) registry

/-- `MsgspecExtension.map_serializer`, parameterised by the output of the
external compiler call `msgspec.json.schema_components([self.target], ...)`:
`possible_schemas` is the list of top-level fragments (the code indexes
`[0]`) and `components` the sub-schema mapping.  If the top-level fragment
has a `type` key it is returned verbatim; otherwise the entry keyed by
`self.target.__name__` is popped out of the mapping and returned.  Every
remaining entry is registered on missing; the result pairs the returned
fragment with the updated registry. -/
def map_serializer (target : PyVal) (possible_schemas : List Json)
    (components : List (String × Json)) (registry : List ResolvedComponent) :
    Except PyError (Json × List ResolvedComponent) :=
  match possible_schemas with
  | [] => .error .indexError
  | possible_schema :: _ =>
    if jsonHasKey possible_schema "type" then
      .ok (possible_schema, foldRegister registry components)
    else
      match pyName target with
      | .error e => .error e
      | .ok nm =>
        match dictPop components nm with
        | none => .error .keyError
        | some (s, rest) => .ok (s, foldRegister registry rest)

/-- A plain struct with only named fields: a declared name and an ordered
mapping from field name to field schema. -/
structure PlainStruct where
  name : String
  fields : List (String × Json)

/-- Modelled from the spec: the schema body the external compiler generates
under a plain struct's own name — an object-shaped body with `properties`
and `required` and no `type` key at its root (spec §8, properties 3 and 7;
the compiler itself, `msgspec.json.schema_components`, is not under
`src/`). -/
def plainStructBody (s : PlainStruct) : Json :=
  .obj [("properties", .obj s.fields),
        ("required", .arr (s.fields.map (fun p => .str p.1)))]

/-- Modelled from the spec: the external compiler's output for a bare plain
struct target — one top-level fragment that is a named-object reference
(`$ref` under the fixed template, no `type` key) and a components mapping
holding the struct's own named schema. -/
def compile_plain_struct (s : PlainStruct) :
    List Json × List (String × Json) :=
  ([.obj [("$ref", .str ("#/components/schemas/" ++ s.name))]],
   [(s.name, plainStructBody s)])

/-- The class value of a plain struct as a documentation target: declared
name, subclassing `msgspec.Struct`. -/
def plainStructClass (s : PlainStruct) : PyClass :=
  ⟨s.name, [s.name, "Struct", "object"]⟩

/-- A target that makes the unwrap step itself fail: a non-class object
whose `__name__` is `list` but which has no `__args__` attribute (for
example a function named `list`). -/
def listNamedNoArgs : PyVal :=
  .obj (some "list") none ⟨"function", ["function", "object"]⟩

/-- Targets on which the unwrap step cannot fail: classes, objects not
named `list`, and objects named `list` with a nonempty `__args__`. -/
def wellFormedTarget : PyVal → Bool
  | .cls _ => true
  | .obj nm args _ =>
    if strLower (nm.getD "none") = "list" then
      match args with
      | some (_ :: _) => true
      | _ => false
    else true

/-! ### Helper lemmas on the registry and the sub-schema mapping -/

theorem regFind_register_preserve (reg : List ResolvedComponent)
    (x : ResolvedComponent) (n : String) (c : ResolvedComponent)
    (h : regFind reg n = some c) :
    regFind (register_on_missing reg x) n = some c := by
  unfold register_on_missing
  cases hf : regFind reg x.name with
  | some _ => exact h
  | none =>
    unfold regFind at h ⊢
    induction reg with
    | nil => simp at h
    | cons a t ih =>
      by_cases ha : a.name = n
      · simp_all [List.find?]
      · simp only [List.cons_append, List.find?]
        simp only [List.find?] at h
        have : (decide (a.name = n)) = false := by simp [ha]
        rw [this] at h ⊢
        exact ih h (by unfold regFind at hf ⊢; simp only [List.find?] at hf; revert hf; cases decide (a.name = x.name) <;> simp)

theorem regFind_none_of_register (reg : List ResolvedComponent)
    (x : ResolvedComponent) (n : String)
    (h : regFind (register_on_missing reg x) n = none) :
    regFind reg n = none := by
  cases hc : regFind reg n with
  | none => rfl
  | some c => rw [regFind_register_preserve reg x n c hc] at h; cases h

theorem mem_register_on_missing (reg : List ResolvedComponent)
    (x e : ResolvedComponent) (h : e ∈ register_on_missing reg x) :
    e ∈ reg ∨ (e = x ∧ regFind reg x.name = none) := by
  unfold register_on_missing at h
  cases hf : regFind reg x.name with
  | some c => rw [hf] at h; exact Or.inl h
  | none =>
    rw [hf] at h
    rcases List.mem_append.1 h with h1 | h1
    · exact Or.inl h1
    · simp only [List.mem_singleton] at h1
      exact Or.inr ⟨h1, rfl⟩

theorem foldRegister_preserve (comps : List (String × Json))
    (reg : List ResolvedComponent) (n : String) (c : ResolvedComponent)
    (h : regFind reg n = some c) :
    regFind (foldRegister reg comps) n = some c := by
  induction comps generalizing reg with
  | nil => exact h
  | cons p rest ih =>
    exact ih (register_on_missing reg (mkComponent p))
      (regFind_register_preserve reg (mkComponent p) n c h)

theorem mem_foldRegister (comps : List (String × Json))
    (reg : List ResolvedComponent) (e : ResolvedComponent)
    (h : e ∈ foldRegister reg comps) :
    e ∈ reg ∨ ((e.name, e.schema) ∈ comps ∧ regFind reg e.name = none
      ∧ e.type = SCHEMA ∧ e.object = e.name) := by
  induction comps generalizing reg with
  | nil => exact Or.inl h
  | cons p rest ih =>
    rcases ih (register_on_missing reg (mkComponent p)) h with h1 | h1
    · rcases mem_register_on_missing reg (mkComponent p) e h1 with h2 | h2
      · exact Or.inl h2
      · rcases h2 with ⟨he, hn⟩
        subst he
        exact Or.inr ⟨List.mem_cons_self _ _, hn, rfl, rfl⟩
    · rcases h1 with ⟨hmem, hnone, hty, hobj⟩
      exact Or.inr ⟨List.mem_cons_of_mem p hmem,
        regFind_none_of_register reg (mkComponent p) e.name hnone, hty, hobj⟩

theorem dictPop_lookup (comps : List (String × Json)) (k : String) (s : Json)
    (rest : List (String × Json)) (h : dictPop comps k = some (s, rest)) :
    dictLookup comps k = some s := by
  induction comps generalizing s rest with
  | nil => simp [dictPop] at h
  | cons p t ih =>
    unfold dictPop at h
    by_cases hp : p.1 = k
    · rw [if_pos hp] at h
      obtain ⟨hs, _⟩ := Prod.mk.injEq .. ▸ Option.some.inj h
      subst hs
      simp [dictLookup, List.find?, hp]
    · rw [if_neg hp] at h
      cases hrec : dictPop t k with
      | none => rw [hrec] at h; cases h
      | some pr =>
        rw [hrec] at h
        obtain ⟨hs, _⟩ := Prod.mk.injEq .. ▸ Option.some.inj h
        subst hs
        have := ih pr.1 pr.2 (by rw [hrec])
        simpa [dictLookup, List.find?, hp] using this

theorem dictLookup_none_pop (comps : List (String × Json)) (k : String)
    (h : dictLookup comps k = none) : dictPop comps k = none := by
  induction comps with
  | nil => rfl
  | cons p t ih =>
    unfold dictLookup at h
    by_cases hp : p.1 = k
    · simp [List.find?, hp] at h
    · simp only [List.find?, decide_eq_true_eq] at h
      rw [decide_eq_false hp] at h
      unfold dictPop
      rw [if_neg hp, ih (by unfold dictLookup; simpa using h)]

theorem dictPop_rest_mem (comps : List (String × Json)) (k : String) (s : Json)
    (rest : List (String × Json)) (h : dictPop comps k = some (s, rest)) :
    ∀ q ∈ rest, q ∈ comps := by
  induction comps generalizing s rest with
  | nil => simp [dictPop] at h
  | cons p t ih =>
    unfold dictPop at h
    by_cases hp : p.1 = k
    · rw [if_pos hp] at h
      obtain ⟨_, hr⟩ := Prod.mk.injEq .. ▸ Option.some.inj h
      subst hr
      exact fun q hq => List.mem_cons_of_mem p hq
    · rw [if_neg hp] at h
      cases hrec : dictPop t k with
      | none => rw [hrec] at h; cases h
      | some pr =>
        rw [hrec] at h
        obtain ⟨_, hr⟩ := Prod.mk.injEq .. ▸ Option.some.inj h
        subst hr
        intro q hq
        rcases List.mem_cons.1 hq with hq1 | hq1
        · exact hq1 ▸ List.mem_cons_self p t
        · exact List.mem_cons_of_mem p (ih pr.1 pr.2 (by rw [hrec]) q hq1)

/-! ### Claim theorems -/

/-- C9: when the lazy dotted-path resolution of `target_class` yields
`None` (the owning library is not installed), `_matches` returns `False`
for every target, in either matching mode, without raising. -/
theorem matches_unavailable_marker (b : Bool) (target : PyVal) :
    matches_target ⟨none, b⟩ target = .ok false := rfl

/-- C4: `get_name` returns the declared class name for a bare struct
target and the literal `ArrayOf` concatenated with that name for a
`list[T]` target, and for the same class the two names are never equal. -/
theorem get_name_bare_and_list (T rc : PyClass) :
    get_name (.cls T) = .ok T.name
    ∧ get_name (.obj (some "list") (some [.cls T]) rc)
        = .ok ("ArrayOf" ++ T.name)
    ∧ "ArrayOf" ++ T.name ≠ T.name := by
  refine ⟨rfl, rfl, ?_⟩
  intro h
  have hlen := congrArg String.length h
  rw [String.length_append] at hlen
  have h7 : "ArrayOf".length = 7 := rfl
  rw [h7] at hlen
  omega

/-- C7: `get_iterable_class` reports `is_list = true` exactly for
non-class targets whose `__name__` (defaulting to `none`) lowercases to
`list`, returning the first declared type argument; a class is returned as
itself and any other object yields its runtime class, with
`is_list = false` in both cases. -/
theorem get_iterable_class_cases :
    (∀ c : PyClass, get_iterable_class (.cls c) = .ok (.cls c, false))
    ∧ (∀ nm args rc a rest, strLower (nm.getD "none") = "list" →
        args = some (a :: rest) →
        get_iterable_class (.obj nm args rc) = .ok (a, true))
    ∧ (∀ nm args rc, strLower (nm.getD "none") ≠ "list" →
        get_iterable_class (.obj nm args rc) = .ok (.cls rc, false))
    ∧ (∀ target cv, get_iterable_class target = .ok (cv, true) →
        ∃ nm args rc a rest, target = .obj nm args rc
          ∧ strLower (nm.getD "none") = "list"
          ∧ args = some (a :: rest) ∧ cv = a) := by
  refine ⟨fun c => rfl, ?_, ?_, ?_⟩
  · intro nm args rc a rest hnm hargs
    subst hargs
    simp [get_iterable_class, hnm]
  · intro nm args rc hnm
    simp [get_iterable_class, hnm]
  · intro target cv h
    cases target with
    | cls c => simp [get_iterable_class] at h
    | obj nm args rc =>
      simp only [get_iterable_class] at h
      by_cases hnm : strLower (nm.getD "none") = "list"
      · rw [if_pos hnm] at h
        cases args with
        | none => cases h
        | some l =>
          cases l with
          | nil => cases h
          | cons a rest =>
            obtain ⟨hcv, _⟩ := Prod.mk.injEq .. ▸ Except.ok.inj h
            exact ⟨nm, some (a :: rest), rc, a, rest, rfl, hnm, rfl, hcv.symm⟩
      · rw [if_neg hnm] at h
        obtain ⟨_, hfl⟩ := Prod.mk.injEq .. ▸ Except.ok.inj h
        cases hfl

/-- Witness for C7 at concrete targets: `list[Point]` unwraps to `Point`
with the flag set, and a function-like object named `fn` falls back to its
runtime class with the flag clear. -/
theorem get_iterable_class_cases_witness :
    get_iterable_class
        (.obj (some "list") (some [.cls ⟨"Point", ["Point"]⟩]) ⟨"GenericAlias", []⟩)
      = .ok (.cls ⟨"Point", ["Point"]⟩, true)
    ∧ get_iterable_class (.obj (some "fn") none ⟨"function", []⟩)
      = .ok (.cls ⟨"function", []⟩, false) :=
  ⟨get_iterable_class_cases.2.1 (some "list") (some [.cls ⟨"Point", ["Point"]⟩])
      ⟨"GenericAlias", []⟩ (.cls ⟨"Point", ["Point"]⟩) [] (by decide) rfl,
   get_iterable_class_cases.2.2.1 (some "fn") none ⟨"function", []⟩ (by decide)⟩

/-- C3: with the marker resolved and subclass matching on (the default),
a struct subclass matches both bare and wrapped in `list[...]`, and any
target whose resolved class is not a subclass of the marker does not
match. -/
theorem matches_subclass_cases (marker T rc : PyClass)
    (hT : marker.name ∈ T.mro) :
    matches_target ⟨some marker, true⟩ (.cls T) = .ok true
    ∧ matches_target ⟨some marker, true⟩
        (.obj (some "list") (some [.cls T]) rc) = .ok true
    ∧ (∀ target c fl, get_iterable_class target = .ok (.cls c, fl) →
        marker.name ∉ c.mro →
        matches_target ⟨some marker, true⟩ target = .ok false) := by
  have hl : strLower "list" = "list" := rfl
  refine ⟨?_, ?_, ?_⟩
  · simp [matches_target, get_iterable_class, issubclass, hT]
  · simp [matches_target, get_iterable_class, issubclass, hT, hl]
  · intro target c fl h hnotin
    simp [matches_target, h, issubclass, hnotin]

/-- Witness for C3: `Point <: Struct` matches bare and as `list[Point]`;
the integer `42` (a non-class object of runtime class `int`) does not. -/
theorem matches_subclass_cases_witness :
    matches_target ⟨some ⟨"Struct", ["Struct", "object"]⟩, true⟩
        (.cls ⟨"Point", ["Point", "Struct", "object"]⟩) = .ok true
    ∧ matches_target ⟨some ⟨"Struct", ["Struct", "object"]⟩, true⟩
        (.obj (some "list") (some [.cls ⟨"Point", ["Point", "Struct", "object"]⟩])
          ⟨"GenericAlias", []⟩) = .ok true
    ∧ matches_target ⟨some ⟨"Struct", ["Struct", "object"]⟩, true⟩
        (.obj none none ⟨"int", ["int", "object"]⟩) = .ok false :=
  ⟨(matches_subclass_cases ⟨"Struct", ["Struct", "object"]⟩
      ⟨"Point", ["Point", "Struct", "object"]⟩ ⟨"GenericAlias", []⟩ (by decide)).1,
   (matches_subclass_cases ⟨"Struct", ["Struct", "object"]⟩
      ⟨"Point", ["Point", "Struct", "object"]⟩ ⟨"GenericAlias", []⟩ (by decide)).2.1,
   (matches_subclass_cases ⟨"Struct", ["Struct", "object"]⟩
      ⟨"Point", ["Point", "Struct", "object"]⟩ ⟨"GenericAlias", []⟩ (by decide)).2.2
     (.obj none none ⟨"int", ["int", "object"]⟩) ⟨"int", ["int", "object"]⟩
     false rfl (by decide)⟩

/-- C5 counterexample: with the default configuration, `_matches` does
raise on a malformed input — a non-class target whose `__name__` is `list`
but which has no `__args__` attribute makes the unwrap step raise an
`AttributeError`, which is not a `TypeError` and so escapes the handler. -/
theorem matches_raises_on_args_free_list :
    matches_target ⟨some ⟨"Struct", ["Struct", "object"]⟩, true⟩ listNamedNoArgs
      = .error .attributeError := rfl

/-- C5 amended: `_matches` returns a boolean and never raises on every
target except a non-class one named `list` (case-insensitively) lacking a
nonempty `__args__`: for any configuration and any such target the result
is `.ok`; moreover, in the default subclass mode with the marker
available, whenever the resolved value is a non-class (so the subclass
check fails with a `TypeError`), the error is caught and the result is the
non-match `.ok false`. -/
theorem matches_total_on_wellformed (ext : MsgspecExtension) (target : PyVal)
    (h : wellFormedTarget target = true) :
    (∃ b, matches_target ext target = .ok b)
    ∧ (∀ tc, ext.target_class = some tc → ext.match_subclasses = true →
      ∀ n a r fl, get_iterable_class target = .ok (.obj n a r, fl) →
      matches_target ext target = .ok false) := by
  rcases ext with ⟨tc, ms⟩
  constructor
  · cases tc with
    | none => exact ⟨false, rfl⟩
    | some marker =>
      have hok : ∃ cv fl, get_iterable_class target = .ok (cv, fl) := by
        cases target with
        | cls c => exact ⟨.cls c, false, rfl⟩
        | obj nm args rc =>
          simp only [wellFormedTarget] at h
          by_cases hnm : strLower (nm.getD "none") = "list"
          · rw [if_pos hnm] at h
            cases args with
            | none => cases h
            | some l =>
              cases l with
              | nil => cases h
              | cons a rest => exact ⟨a, true, by simp [get_iterable_class, hnm]⟩
          · exact ⟨.cls rc, false, by simp [get_iterable_class, hnm]⟩
      rcases hok with ⟨cv, fl, hcv⟩
      cases ms with
      | false => exact ⟨py_class_eq cv marker, by simp [matches_target, hcv]⟩
      | true =>
        cases cv with
        | cls c =>
          exact ⟨decide (marker.name ∈ c.mro), by simp [matches_target, hcv, issubclass]⟩
        | obj n a r => exact ⟨false, by simp [matches_target, hcv, issubclass]⟩
  · intro tc' htc hms n a r fl hcv
    simp only at htc hms
    subst htc hms
    simp [matches_target, hcv, issubclass]

/-- Witness for the amended C5: the well-formed target `list[42]` resolves
to a non-class value, the subclass check's `TypeError` is caught, and
`_matches` returns the non-match `False`. -/
theorem matches_total_on_wellformed_witness :
    matches_target ⟨some ⟨"Struct", ["Struct", "object"]⟩, true⟩
        (.obj (some "list") (some [.obj none none ⟨"int", ["int", "object"]⟩])
          ⟨"GenericAlias", []⟩) = .ok false :=
  (matches_total_on_wellformed ⟨some ⟨"Struct", ["Struct", "object"]⟩, true⟩
      (.obj (some "list") (some [.obj none none ⟨"int", ["int", "object"]⟩])
        ⟨"GenericAlias", []⟩) rfl).2
    ⟨"Struct", ["Struct", "object"]⟩ rfl rfl
    none none ⟨"int", ["int", "object"]⟩ true rfl

/-- C1: the shape decision of `map_serializer` — a top-level fragment
carrying a `type` key at its root is returned verbatim; otherwise the
entry popped from the sub-schema mapping under the target's declared
`__name__` is returned unchanged, equal to the compiler's raw output
under that name. -/
theorem map_serializer_shape_decision (target : PyVal) (p : Json)
    (ps : List Json) (comps : List (String × Json))
    (reg : List ResolvedComponent) (nm : String) (s : Json)
    (rest : List (String × Json)) :
    (jsonHasKey p "type" = true →
      map_serializer target (p :: ps) comps reg
        = .ok (p, foldRegister reg comps))
    ∧ (jsonHasKey p "type" = false → pyName target = .ok nm →
      dictPop comps nm = some (s, rest) →
      map_serializer target (p :: ps) comps reg
        = .ok (s, foldRegister reg rest)
        ∧ dictLookup comps nm = some s) := by
  constructor
  · intro h
    simp [map_serializer, h]
  · intro h hn hp
    exact ⟨by simp [map_serializer, h, hn, hp], dictPop_lookup comps nm s rest hp⟩

/-- Witness for C1: an array-framed fragment is returned verbatim; a
ref-framed one is replaced by the entry popped under the target's name. -/
theorem map_serializer_shape_decision_witness :
    map_serializer (.cls ⟨"Point", ["Point"]⟩)
        [.obj [("type", .str "array")]] [] []
      = .ok (.obj [("type", .str "array")], foldRegister [] [])
    ∧ (map_serializer (.cls ⟨"Point", ["Point"]⟩)
        [.obj [("$ref", .str "#/components/schemas/Point")]]
        [("Point", .str "body")] []
      = .ok (.str "body", foldRegister [] [])
      ∧ dictLookup [("Point", .str "body")] "Point" = some (.str "body")) :=
  ⟨(map_serializer_shape_decision (.cls ⟨"Point", ["Point"]⟩)
      (.obj [("type", .str "array")]) [] [] [] "Point" (.str "body") []).1 rfl,
   (map_serializer_shape_decision (.cls ⟨"Point", ["Point"]⟩)
      (.obj [("$ref", .str "#/components/schemas/Point")]) []
      [("Point", .str "body")] [] "Point" (.str "body") []).2 rfl rfl rfl⟩

/-- C10: when the top-level fragment has no `type` key, `map_serializer`
requires the target to expose `__name__` (otherwise the attribute error
propagates), and raises `KeyError` when the sub-schema mapping has no
entry keyed by that name — the pop has no default. -/
theorem map_serializer_missing_component (target : PyVal) (p : Json)
    (ps : List Json) (comps : List (String × Json))
    (reg : List ResolvedComponent) (nm : String)
    (hty : jsonHasKey p "type" = false) :
    (pyName target = .ok nm → dictLookup comps nm = none →
      map_serializer target (p :: ps) comps reg = .error .keyError)
    ∧ (∀ e, pyName target = .error e →
      map_serializer target (p :: ps) comps reg = .error e) := by
  constructor
  · intro hn hl
    simp [map_serializer, hty, hn, dictLookup_none_pop comps nm hl]
  · intro e he
    simp [map_serializer, hty, he]

/-- Witness for C10: a ref-framed fragment with an empty mapping gives
`KeyError`; a target without `__name__` gives `AttributeError`. -/
theorem map_serializer_missing_component_witness :
    map_serializer (.cls ⟨"Point", ["Point"]⟩)
        [.obj [("$ref", .str "#/components/schemas/Point")]] [] []
      = .error .keyError
    ∧ map_serializer (.obj none none ⟨"X", []⟩)
        [.obj [("$ref", .str "#/components/schemas/X")]] [] []
      = .error .attributeError :=
  ⟨(map_serializer_missing_component (.cls ⟨"Point", ["Point"]⟩)
      (.obj [("$ref", .str "#/components/schemas/Point")]) [] [] [] "Point"
      rfl).1 rfl rfl,
   (map_serializer_missing_component (.obj none none ⟨"X", []⟩)
      (.obj [("$ref", .str "#/components/schemas/X")]) [] [] [] "X"
      rfl).2 .attributeError rfl⟩

/-- C8: `get_name` is deterministic, and the fragment `map_serializer`
returns does not depend on the registry state, so two calls on the same
target with the same (deterministic) compiler output produce the identical
name and a structurally identical fragment. -/
theorem name_and_schema_idempotent (target : PyVal) (ps : List Json)
    (comps : List (String × Json)) (reg1 reg2 : List ResolvedComponent) :
    get_name target = get_name target
    ∧ Except.map Prod.fst (map_serializer target ps comps reg1)
      = Except.map Prod.fst (map_serializer target ps comps reg2) := by
  refine ⟨rfl, ?_⟩
  cases ps with
  | nil => rfl
  | cons p rest =>
    by_cases h : jsonHasKey p "type" = true
    · simp [map_serializer, h, Except.map]
    · rw [Bool.not_eq_true] at h
      cases hn : pyName target with
      | error e => simp [map_serializer, h, hn]
      | ok nm =>
        cases hp : dictPop comps nm with
        | none => simp [map_serializer, h, hn, hp]
        | some pr => simp [map_serializer, h, hn, hp, Except.map]

/-- C2: first-writer-wins registration — after a successful
`map_serializer` call, every registry entry present before the call is
still found unchanged under its name, and every entry that is new comes
from the remaining sub-schema mapping and was registered only because no
component of that name was present. -/
theorem map_serializer_first_writer_wins (target : PyVal) (ps : List Json)
    (comps : List (String × Json)) (reg reg' : List ResolvedComponent)
    (schema : Json)
    (hrun : map_serializer target ps comps reg = .ok (schema, reg')) :
    (∀ n c, regFind reg n = some c → regFind reg' n = some c)
    ∧ (∀ e, e ∈ reg' → e ∉ reg →
      regFind reg e.name = none ∧ (e.name, e.schema) ∈ comps
      ∧ e.type = SCHEMA ∧ e.object = e.name) := by
  have main : ∀ (used : List (String × Json)), reg' = foldRegister reg used →
      (∀ q ∈ used, q ∈ comps) →
      (∀ n c, regFind reg n = some c → regFind reg' n = some c)
      ∧ (∀ e, e ∈ reg' → e ∉ reg →
        regFind reg e.name = none ∧ (e.name, e.schema) ∈ comps
        ∧ e.type = SCHEMA ∧ e.object = e.name) := by
    intro used hreg hsub
    subst hreg
    refine ⟨fun n c hc => foldRegister_preserve used reg n c hc, ?_⟩
    intro e he hne
    rcases mem_foldRegister used reg e he with h1 | h1
    · exact absurd h1 hne
    · exact ⟨h1.2.1, hsub _ h1.1, h1.2.2⟩
  cases ps with
  | nil => exact absurd hrun (by simp [map_serializer])
  | cons p rest =>
    by_cases h : jsonHasKey p "type" = true
    · have := hrun
      simp only [map_serializer, h, if_pos, Except.ok.injEq, Prod.mk.injEq] at this
      exact main comps this.2.symm (fun q hq => hq)
    · rw [Bool.not_eq_true] at h
      cases hn : pyName target with
      | error e => simp [map_serializer, h, hn] at hrun
      | ok nm =>
        cases hp : dictPop comps nm with
        | none => simp [map_serializer, h, hn, hp] at hrun
        | some pr =>
          have := hrun
          simp only [map_serializer, h, hn, hp, Bool.false_eq_true, if_false,
            Except.ok.injEq, Prod.mk.injEq] at this
          exact main pr.2 this.2.symm (dictPop_rest_mem comps nm pr.1 pr.2 (by rw [hp]))

/-- Witness for C2: the registry is seeded with a sentinel body for `U`;
documenting a struct whose sub-schema mapping also carries a `U` entry
leaves the sentinel unchanged. -/
theorem map_serializer_first_writer_wins_witness :
    regFind (foldRegister [⟨"U", SCHEMA, "U", .str "sentinel"⟩]
        [("U", .str "other")]) "U"
      = some ⟨"U", SCHEMA, "U", .str "sentinel"⟩ :=
  (map_serializer_first_writer_wins (.cls ⟨"Point", ["Point"]⟩)
    [.obj [("$ref", .str "#/components/schemas/Point")]]
    [("Point", .str "pbody"), ("U", .str "other")]
    [⟨"U", SCHEMA, "U", .str "sentinel"⟩]
    (foldRegister [⟨"U", SCHEMA, "U", .str "sentinel"⟩] [("U", .str "other")])
    (.str "pbody") rfl).1 "U" ⟨"U", SCHEMA, "U", .str "sentinel"⟩ rfl

/-- C6: for a plain struct with only named fields, under the spec-modelled
compiler output `map_serializer` returns exactly the fragment the compiler
generated under the struct's own name, and that fragment has no `type` key
at its own root. -/
theorem map_serializer_plain_struct (s : PlainStruct)
    (reg : List ResolvedComponent) :
    map_serializer (.cls (plainStructClass s)) (compile_plain_struct s).1
        (compile_plain_struct s).2 reg
      = .ok (plainStructBody s, reg)
    ∧ jsonHasKey (plainStructBody s) "type" = false
    ∧ dictLookup (compile_plain_struct s).2 s.name
      = some (plainStructBody s) := by
  refine ⟨?_, ?_, ?_⟩
  · simp [map_serializer, compile_plain_struct, jsonHasKey, pyName,
      plainStructClass, dictPop, foldRegister]
  · simp [jsonHasKey, plainStructBody]
  · simp [dictLookup, compile_plain_struct, List.find?]

end MsgspecBlueprint
